import Mathlib

/-!
Verification of the pagination/navigator engine of the nicabot-monkee
repository against its specification.

Python strings are modelled as lists of characters (`Text`), so that
Python's length and slicing semantics (including negative slice bounds)
carry over exactly.  The paginator, navigator, button registry and
cleanup policy are embedded shallowly; chat-client boundary calls are
reified as a `Call` datatype so that theorems can speak about which
side-effecting calls a routine issues and in which order.
-/

/-- A Python string, modelled as its sequence of code points. -/
abbrev Text := List Char

namespace Nicabot

/-- Embeds `neko3.string.trunc` (src/neko3/string.py lines 73-78):
`if len(text) <= max_length: return text else: return text[0:max_length-3] + "..."`.
Python's slice `text[0:k]` with a negative `k` counts from the end of the
string (clamped at zero), which the second branch reproduces. -/
def trunc (text : Text) (maxLength : Nat) : Text :=
  if text.length ≤ maxLength then text
  else if maxLength < 3 then
    text.take (text.length + maxLength - 3) ++ ('.' :: '.' :: '.' :: [])
  else
    text.take (maxLength - 3) ++ ('.' :: '.' :: '.' :: [])

/-- Modelled from the spec: the `Paginator` buffer of §3/§4.1
(src/neko3/pagination/paginator.py is not present in the tree; only its
callers and the factory subclass are).  A mutable ordered sequence of
sealed pages plus the page currently under construction, a maximum
page size, fixed per-page wrapping text, and a truncation flag. -/
structure Paginator where
  maxSize : Nat
  pre : Text
  suf : Text
  enableTruncation : Bool
  closed : List (List Text)
  current : List Text
  deriving Repr, DecidableEq

namespace Paginator

/-- Modelled from the spec: a freshly constructed paginator holds no
sealed pages and an empty page under construction. -/
def init (maxSize : Nat) (pre suf : Text) (enableTruncation : Bool) : Paginator :=
  ⟨maxSize, pre, suf, enableTruncation, [], []⟩

/-- The size budget available to a page's own content: the configured
maximum minus the fixed per-page wrapping (spec §4.1: "maxPageSize minus
prefix/suffix length"). -/
def eff (p : Paginator) : Nat :=
  p.maxSize - p.pre.length - p.suf.length

/-- The rendered content of one page: its lines joined by newlines
(spec §4.1: addLine "appends a line (plus newline)"). -/
def joinLines : List Text → Text
  | [] => []
  | [l] => l
  | l :: ls => l ++ '\n' :: joinLines ls

/-- Length of a page's joined content. -/
def pageLen (ls : List Text) : Nat := (joinLines ls).length

/-- Modelled from the spec (§4.1 `addLine`): appends a line (plus newline)
to the current page; if appending would exceed the size budget the
current page is sealed and a new page begins with this line; with
truncation enabled an overlong line is first hard-truncated with an
ellipsis (via `trunc`) to fit a single page.  `toBack = false` inserts
at the front of the pending buffer instead of the tail. -/
def addLine (p : Paginator) (line : Text) (toBack : Bool) : Paginator :=
  let l := if p.enableTruncation then trunc line p.eff else line
  if p.current ≠ [] ∧ p.eff < pageLen (p.current ++ [l]) then
    { p with closed := p.closed ++ [p.current], current := [l] }
  else
    { p with current := if toBack then p.current ++ [l] else l :: p.current }

/-- Modelled from the spec (§4.1 `addPageBreak`): seals the current page
immediately regardless of fill level, even when it is empty. -/
def addPageBreak (p : Paginator) : Paginator :=
  { p with closed := p.closed ++ [p.current], current := [] }

/-- Modelled from the spec (§4.1 `pages`): the ordered sequence of sealed
pages including the still-open trailing page, as raw (unwrapped) content. -/
def rawPages (p : Paginator) : List Text :=
  (p.closed ++ [p.current]).map joinLines

/-- Modelled from the spec (§4.2): the string factory wraps each page's
raw content with the fixed per-page wrapping before emitting it. -/
def pages (p : Paginator) : List Text :=
  p.rawPages.map (fun c => p.pre ++ c ++ p.suf)

/-- Modelled from the spec (§4.1): reading the `pages` property finalizes
the current buffer into a page list and leaves the buffer untouched, so
repeated reads agree. -/
def readPages (p : Paginator) : List Text × Paginator :=
  (p.pages, p)

/-- Replays a whole sequence of `addLine` calls (line, toBack). -/
def runAdds (p : Paginator) (inputs : List (Text × Bool)) : Paginator :=
  inputs.foldl (fun q lb => q.addLine lb.1 lb.2) p

end Paginator

/-- Modelled from the spec (§4.4): the fixed vocabulary of button actions
of the default set, in registration order; `lock` is "stop/delete". -/
inductive BAction where
  | first
  | back
  | forward
  | last
  | lock
  deriving Repr, DecidableEq

/-- Modelled from the spec (§4.4): the platform trigger (reaction symbol)
bound to each action. -/
def BAction.trigger : BAction → Text
  | .first => ['<', '<']
  | .back => ['<']
  | .forward => ['>']
  | .last => ['>', '>']
  | .lock => ['x']

/-- Modelled from the spec (§4.4): the default ordered action set
`first, back, forward, last, lock`. -/
def defaultButtons : List BAction :=
  [.first, .back, .forward, .last, .lock]

/-- A value assignable to a navigator attribute (the shallow image of an
arbitrary Python object for the purposes of `build`'s kwargs). -/
inductive PyVal where
  | vstr (s : Text)
  | vnat (n : Nat)
  | vbool (b : Bool)
  deriving Repr, DecidableEq

/-- The invocation context handed to the factory: destination channel,
invoking user and bot owner (the two identities the default permission
predicate accepts, spec §4.4). -/
structure Ctx where
  channel : Nat
  author : Nat
  botOwner : Nat
  deriving Repr, DecidableEq

/-- Modelled from the spec (§3 NavigatorState): the live binding between
a built page sequence and a posted message.  `boundMessage` is null until
the first post; `additional` is the caller-supplied supplementary message
list of §4.5; `attrs` records the attributes assigned by `build`'s kwargs
loop. -/
structure StringNavigator where
  channel : Nat
  owner : Nat
  botOwner : Nat
  pages : List Text
  buttons : List BAction
  timeout : Nat
  currentIndex : Nat
  isAlive : Bool
  boundMessage : Option Nat
  additional : List Nat
  attrs : List (Text × PyVal)
  deriving Repr, DecidableEq

/-- A side-effecting call issued against the chat-client boundary
(spec §6), reified so theorems can count and order them. -/
inductive Call where
  | postMessage (channel : Nat) (content : Text)
  | editMessage (message : Nat) (content : Text)
  | deleteMessage (message : Nat)
  | clearReactions (message : Nat)
  | addReaction (message : Nat) (trigger : Text)
  | removeReaction (message : Nat) (user : Nat)
  deriving Repr, DecidableEq

/-- Modelled from the spec (§3 CleanupPolicy): a set of flags combined via
bitwise OR. -/
structure CleanupPolicy where
  removeReactions : Bool
  removeNonRootMessages : Bool
  removeAllSentMessages : Bool
  addShutdownReact : Bool
  deriving Repr, DecidableEq

namespace CleanupPolicy

/-- Bitwise-OR combination of two cleanup policies. -/
def orWith (a b : CleanupPolicy) : CleanupPolicy :=
  ⟨a.removeReactions || b.removeReactions,
   a.removeNonRootMessages || b.removeNonRootMessages,
   a.removeAllSentMessages || b.removeAllSentMessages,
   a.addShutdownReact || b.addShutdownReact⟩

/-- The `RemoveReactions` flag alone. -/
def RemoveReactions : CleanupPolicy := ⟨true, false, false, false⟩

/-- The `RemoveNonRootMessages` flag alone. -/
def RemoveNonRootMessages : CleanupPolicy := ⟨false, true, false, false⟩

/-- The `RemoveAllSentMessages` flag alone. -/
def RemoveAllSentMessages : CleanupPolicy := ⟨false, false, true, false⟩

/-- The `AddShutdownReact` flag alone. -/
def AddShutdownReact : CleanupPolicy := ⟨false, false, false, true⟩

end CleanupPolicy

namespace StringNavigator

/-- Modelled from the spec: the constructor invoked by
`StringNavigatorFactory.build` (src/neko3/pagination/factory/stringfactory.py
line 75); the navigator class itself is not present in the tree.  It
stores the page sequence, button list, timeout and initial index; the
navigator is not yet bound to a message. -/
def mk' (ctx : Ctx) (pages : List Text) (buttons : List BAction)
    (timeout : Nat) (initialPage : Nat) : StringNavigator :=
  ⟨ctx.channel, ctx.author, ctx.botOwner, pages, buttons, timeout,
   initialPage, true, none, [], []⟩

/-- Modelled from the spec (§4.3/§4.4): the state change performed by one
button action.  Jump actions clamp to the valid bounds; back/forward are
no-ops at their respective boundary; lock terminates the navigator. -/
def applyAction (n : StringNavigator) (a : BAction) : StringNavigator :=
  match a with
  | .first => { n with currentIndex := 0 }
  | .back => { n with currentIndex := n.currentIndex - 1 }
  | .forward => { n with currentIndex := min (n.pages.length - 1) (n.currentIndex + 1) }
  | .last => { n with currentIndex := n.pages.length - 1 }
  | .lock => { n with isAlive := false }

/-- An event the navigator's state can react to: a button press, the idle
timeout firing, or an explicit kill. -/
inductive NavOp where
  | press (a : BAction)
  | timeoutFire
  | killOp (policy : CleanupPolicy)
  deriving Repr, DecidableEq

/-- Modelled from the spec (§4.3/§5): one state transition.  Events
delivered after `isAlive` became false are ignored; timeout and kill
transition to a terminal state. -/
def applyOp (n : StringNavigator) (op : NavOp) : StringNavigator :=
  if n.isAlive = false then n
  else
    match op with
    | .press a => n.applyAction a
    | .timeoutFire => { n with isAlive := false }
    | .killOp _ => { n with isAlive := false }

/-- Replays a sequence of events against a navigator state. -/
def runOps (n : StringNavigator) (ops : List NavOp) : StringNavigator :=
  ops.foldl applyOp n

/-- Modelled from the spec (§4.3 `start`): posts the initial page to the
destination, registers the configured triggers in order on the posted
message (whose platform-assigned id is `mid`), and binds the navigator to
that message. -/
def start (n : StringNavigator) (mid : Nat) : StringNavigator × List Call :=
  ({ n with boundMessage := some mid },
   Call.postMessage n.channel (n.pages.getD n.currentIndex [])
     :: n.buttons.map (fun b => Call.addReaction mid b.trigger))

/-- An interaction event delivered by the chat-client boundary: the
message it targets, the matched trigger's action, and the acting user. -/
structure Event where
  messageId : Nat
  action : BAction
  actingUser : Nat
  deriving Repr, DecidableEq

/-- Modelled from the spec (§4.3): interaction handling.  Events for a
dead navigator or a different message are discarded; events failing the
permission predicate (acting user neither invoker nor bot owner) only
remove the triggering reaction; accepted events apply the action's
effect, edit the bound message to the new page and clear the consumed
trigger. -/
def handleEvent (n : StringNavigator) (e : Event) : StringNavigator × List Call :=
  if n.isAlive = false then (n, [])
  else if n.boundMessage ≠ some e.messageId then (n, [])
  else if e.actingUser = n.owner ∨ e.actingUser = n.botOwner then
    let n' := n.applyAction e.action
    (n', [Call.editMessage e.messageId (n'.pages.getD n'.currentIndex []),
          Call.removeReaction e.messageId e.actingUser])
  else (n, [Call.removeReaction e.messageId e.actingUser])

/-- Modelled from the spec (§4.5): the ordered, best-effort cleanup call
sequence for a policy: (1) delete all posted messages, or else only the
supplementary ones; (2) clear the root message's reactions; (3) post the
shutdown reaction. -/
def cleanupCalls (policy : CleanupPolicy) (root : Nat) (additional : List Nat) :
    List Call :=
  (if policy.removeAllSentMessages then (root :: additional).map Call.deleteMessage
   else if policy.removeNonRootMessages then additional.map Call.deleteMessage
   else [])
  ++ (if policy.removeReactions then [Call.clearReactions root] else [])
  ++ (if policy.addShutdownReact then [Call.addReaction root ['z', 'z', 'z']] else [])

/-- Modelled from the spec (§4.3 `kill`): explicit termination; the
navigator becomes dead and the cleanup calls for the caller's policy are
issued against the bound message `root`. -/
def kill (n : StringNavigator) (policy : CleanupPolicy) (root : Nat) :
    StringNavigator × List Call :=
  ({ n with isAlive := false }, cleanupCalls policy root n.additional)

end StringNavigator

/-- Modelled from the spec (§7/§9): the best-effort executor for a cleanup
call list.  Every call is attempted regardless of which earlier calls
fail; the outcome of each attempt is recorded alongside it. -/
def attemptAll (fails : Call → Bool) (calls : List Call) : List (Call × Bool) :=
  calls.map (fun c => (c, fails c))

namespace StringNavigatorFactory

open StringNavigator

/-- Embeds the kwargs loop of `StringNavigatorFactory.build`
(src/neko3/pagination/factory/stringfactory.py lines 76-77):
`for k, v in kwargs: setattr(n, k, v)`.  Iterating a Python dict yields
its keys, so each loop step tuple-unpacks one key string: a key of any
length other than two raises `ValueError`, and a two-character key binds
`k` and `v` to its two characters (each a one-character string), so the
attribute named after the first character is set to the second character.
The dict's values are never consulted. -/
def assignKwargs : StringNavigator → List Text → Except String StringNavigator
  | n, [] => .ok n
  | n, k :: rest =>
      if k.length = 2 then
        assignKwargs
          { n with attrs := n.attrs ++ [(k.take 1, PyVal.vstr (k.drop 1))] } rest
      else
        .error "ValueError"

/-- Embeds `StringNavigatorFactory.build`
(src/neko3/pagination/factory/stringfactory.py lines 50-78): defaults the
button list, constructs a `StringNavigator` over the paginator's pages,
then runs the kwargs assignment loop.  `kwargs` is the keyword-argument
dict as an association list in insertion order. -/
def build (p : Paginator) (ctx : Ctx) (buttons : Option (List BAction))
    (timeout : Nat) (initialPage : Nat) (kwargs : List (Text × PyVal)) :
    Except String StringNavigator :=
  let bs := buttons.getD defaultButtons
  assignKwargs (StringNavigator.mk' ctx p.pages bs timeout initialPage)
    (kwargs.map Prod.fst)

/-- Embeds `StringNavigatorFactory.start`
(src/neko3/pagination/factory/stringfactory.py lines 80-92): literally
`self.build(ctx, buttons, timeout=timeout, initial_page=initial_page,
**kwargs).start()`, with `mid` the platform-assigned id of the posted
message. -/
def start (p : Paginator) (ctx : Ctx) (buttons : Option (List BAction))
    (timeout : Nat) (initialPage : Nat) (kwargs : List (Text × PyVal))
    (mid : Nat) : Except String (StringNavigator × List Call) :=
  match build p ctx buttons timeout initialPage kwargs with
  | .error e => .error e
  | .ok n => .ok (n.start mid)

/-- The specification's description of the factory's `start` (§4.2):
"build + immediately post" with identical option semantics — build with
the same arguments, then invoke the navigator's own start. -/
def startSpec (p : Paginator) (ctx : Ctx) (buttons : Option (List BAction))
    (timeout : Nat) (initialPage : Nat) (kwargs : List (Text × PyVal))
    (mid : Nat) : Except String (StringNavigator × List Call) :=
  (build p ctx buttons timeout initialPage kwargs).map
    (fun n => n.start mid)

end StringNavigatorFactory

/-! ## Paginator lemmas -/

namespace Paginator

theorem pageLen_eq (ls : List Text) :
    pageLen ls = (ls.map List.length).sum + ls.length - 1 := by
  induction ls with
  | nil => rfl
  | cons l ls ih =>
    cases ls with
    | nil => simp [pageLen, joinLines]
    | cons m ms =>
      simp only [pageLen, joinLines, List.length_append, List.length_cons,
        List.map_cons, List.sum_cons] at *
      omega

theorem trunc_length_le (t : Text) (m : Nat) (h3 : 3 ≤ m) :
    (trunc t m).length ≤ m := by
  unfold trunc
  split
  · next h => exact h
  · next h =>
    have hlt : ¬ m < 3 := by omega
    rw [if_neg hlt]
    simp only [List.length_append, List.length_take, List.length_cons,
      List.length_nil]
    omega

theorem trunc_eq_of_le (t : Text) (m : Nat) (h : t.length ≤ m) :
    trunc t m = t := by
  simp [trunc, h]

theorem trunc_eq_of_gt (t : Text) (m : Nat) (h : m < t.length) (h3 : 3 ≤ m) :
    trunc t m = t.take (m - 3) ++ ('.' :: '.' :: '.' :: []) := by
  unfold trunc
  rw [if_neg (show ¬ t.length ≤ m by omega), if_neg (show ¬ m < 3 by omega)]

theorem addLine_truncating (p : Paginator) (line : Text) (tb : Bool)
    (htr : p.enableTruncation = true) :
    p.addLine line tb =
      if p.current ≠ [] ∧ p.eff < pageLen (p.current ++ [trunc line p.eff]) then
        { p with closed := p.closed ++ [p.current], current := [trunc line p.eff] }
      else
        { p with current :=
            if tb then p.current ++ [trunc line p.eff]
            else trunc line p.eff :: p.current } := by
  unfold addLine
  rw [htr]
  exact rfl

theorem addLine_config (p : Paginator) (line : Text) (tb : Bool) :
    (p.addLine line tb).maxSize = p.maxSize
    ∧ (p.addLine line tb).pre = p.pre
    ∧ (p.addLine line tb).suf = p.suf
    ∧ (p.addLine line tb).enableTruncation = p.enableTruncation
    ∧ (p.addLine line tb).eff = p.eff := by
  unfold addLine eff
  dsimp only
  repeat' split
  all_goals exact ⟨rfl, rfl, rfl, rfl, rfl⟩

theorem pageLen_single (l : Text) : pageLen [l] = l.length := rfl

theorem sizeOK_addLine (p : Paginator) (line : Text) (tb : Bool)
    (htr : p.enableTruncation = true) (h3 : 3 ≤ p.eff)
    (hp : ∀ ls ∈ p.closed ++ [p.current], pageLen ls ≤ p.eff) :
    ∀ ls ∈ (p.addLine line tb).closed ++ [(p.addLine line tb).current],
      pageLen ls ≤ p.eff := by
  have hl : (trunc line p.eff).length ≤ p.eff := trunc_length_le line p.eff h3
  rw [addLine_truncating p line tb htr]
  split
  · next hcond =>
    intro ls hls
    simp only [List.mem_append, List.mem_singleton] at hls
    rcases hls with (h2 | h2) | h1
    · exact hp ls (by simp [h2])
    · rw [h2]
      exact hp p.current (by simp)
    · rw [h1, pageLen_single]
      exact hl
  · next hcond =>
    push_neg at hcond
    intro ls hls
    simp only [List.mem_append, List.mem_singleton] at hls
    rcases hls with h1 | h1
    · exact hp ls (by simp [h1])
    · rw [h1]
      have hswap : pageLen (trunc line p.eff :: p.current)
          = pageLen (p.current ++ [trunc line p.eff]) := by
        rw [pageLen_eq, pageLen_eq]
        simp only [List.map_append, List.map_cons, List.sum_append,
          List.map_nil, List.sum_cons, List.sum_nil, List.length_append,
          List.length_cons, List.length_nil]
        omega
      by_cases hc : p.current = []
      · rw [hc]
        cases tb
        · rw [if_neg Bool.false_ne_true]
          simpa [pageLen_single] using hl
        · rw [if_pos rfl]
          simpa [pageLen_single] using hl
      · have hfit : pageLen (p.current ++ [trunc line p.eff]) ≤ p.eff := by
          have := hcond hc
          omega
        cases tb
        · rw [if_neg Bool.false_ne_true, hswap]
          exact hfit
        · rw [if_pos rfl]
          exact hfit

theorem sizeOK_runAdds (inputs : List (Text × Bool)) (p : Paginator)
    (htr : p.enableTruncation = true) (h3 : 3 ≤ p.eff)
    (hp : ∀ ls ∈ p.closed ++ [p.current], pageLen ls ≤ p.eff) :
    ∀ ls ∈ (p.runAdds inputs).closed ++ [(p.runAdds inputs).current],
      pageLen ls ≤ p.eff := by
  induction inputs generalizing p with
  | nil => exact hp
  | cons lb rest ih =>
    have hcfg := addLine_config p lb.1 lb.2
    have h2 := ih (p.addLine lb.1 lb.2)
      (by rw [hcfg.2.2.2.1]; exact htr) (by rw [hcfg.2.2.2.2]; exact h3)
      (by
        intro ls hls
        rw [hcfg.2.2.2.2]
        exact sizeOK_addLine p lb.1 lb.2 htr h3 hp ls hls)
    rw [hcfg.2.2.2.2] at h2
    exact h2

theorem runAdds_config (inputs : List (Text × Bool)) (p : Paginator) :
    (p.runAdds inputs).maxSize = p.maxSize
    ∧ (p.runAdds inputs).pre = p.pre
    ∧ (p.runAdds inputs).suf = p.suf
    ∧ (p.runAdds inputs).enableTruncation = p.enableTruncation
    ∧ (p.runAdds inputs).eff = p.eff := by
  induction inputs generalizing p with
  | nil => exact ⟨rfl, rfl, rfl, rfl, rfl⟩
  | cons lb rest ih =>
    have h1 := addLine_config p lb.1 lb.2
    have h2 := ih (p.addLine lb.1 lb.2)
    exact ⟨h1.1 ▸ h2.1, h1.2.1 ▸ h2.2.1, h1.2.2.1 ▸ h2.2.2.1,
      h1.2.2.2.1 ▸ h2.2.2.2.1, h1.2.2.2.2 ▸ h2.2.2.2.2⟩

end Paginator

/-! ## Claims C1-C4: the Paginator -/

open Paginator in
/-- C1 (amended): for every configured maxPageSize at least 3 larger than
the combined prefix/suffix length, and every sequence of addLine calls
with truncation enabled, every produced page's rendered length
(prefix + content + suffix) is at most maxPageSize; a single line longer
than the effective limit (maxPageSize minus prefix and suffix lengths) is
truncated so that the result keeps the first effective-limit-minus-3
characters of the line followed by a 3-character ellipsis marker (which
is maxPageSize - 3 characters when prefix and suffix are empty), and any
line already within the effective limit is kept unchanged. -/
theorem paginator_truncation_bound (m : Nat) (pre suf : Text)
    (h : pre.length + suf.length + 3 ≤ m)
    (inputs : List (Text × Bool)) (line : Text) :
    (∀ page ∈ (Paginator.runAdds (Paginator.init m pre suf true) inputs).pages,
        page.length ≤ m)
    ∧ (line.length ≤ m - pre.length - suf.length →
        trunc line (m - pre.length - suf.length) = line)
    ∧ (m - pre.length - suf.length < line.length →
        trunc line (m - pre.length - suf.length)
          = line.take (m - pre.length - suf.length - 3)
              ++ ('.' :: '.' :: '.' :: [])) := by
  have heff : (Paginator.init m pre suf true).eff = m - pre.length - suf.length := rfl
  have h3 : 3 ≤ (Paginator.init m pre suf true).eff := by
    rw [heff]; omega
  refine ⟨?_, ?_, ?_⟩
  · intro page hpage
    rcases List.mem_map.mp hpage with ⟨c, hc, rfl⟩
    rcases List.mem_map.mp hc with ⟨ls, hls, rfl⟩
    have hsz := sizeOK_runAdds inputs (Paginator.init m pre suf true) rfl h3
      (by
        intro ls hls
        simp only [Paginator.init, List.nil_append, List.mem_singleton] at hls
        rw [hls]
        exact Nat.zero_le _) ls hls
    have hcfg := runAdds_config inputs (Paginator.init m pre suf true)
    simp only [List.length_append]
    rw [hcfg.2.1, hcfg.2.2.1]
    have : (joinLines ls).length ≤ m - pre.length - suf.length := by
      rw [← heff]; exact hsz
    simp only [Paginator.init] at this ⊢
    omega
  · intro hle
    exact trunc_eq_of_le _ _ hle
  · intro hgt
    exact trunc_eq_of_gt _ _ hgt (by omega)

/-- C1 witness: a concrete instantiation of the amended C1 theorem at
maxPageSize 10 with empty prefix/suffix and one overlong line. -/
theorem paginator_truncation_bound_witness :
    (3 ≤ 10)
    ∧ ((∀ page ∈ (Paginator.runAdds (Paginator.init 10 [] [] true)
          [("abcdefghijkl".toList, true)]).pages, page.length ≤ 10)
      ∧ ("abcdefghijkl".toList.length ≤ 10 →
          Nicabot.trunc "abcdefghijkl".toList 10 = "abcdefghijkl".toList)
      ∧ (10 < "abcdefghijkl".toList.length →
          Nicabot.trunc "abcdefghijkl".toList 10
            = "abcdefghijkl".toList.take 7 ++ ('.' :: '.' :: '.' :: []))) :=
  ⟨by decide,
   paginator_truncation_bound 10 [] [] (by decide)
     [("abcdefghijkl".toList, true)] "abcdefghijkl".toList⟩

/-- C1 counterexample: with maxPageSize 10, prefix "ab" and suffix "cd",
an overlong line is truncated to fit the effective limit 6, not to the
first maxPageSize - 3 = 7 characters plus ellipsis that the claim
states; the produced page keeps only the first 3 characters. -/
theorem paginator_truncation_counterexample :
    (Paginator.addLine (Paginator.init 10 "ab".toList "cd".toList true)
        (List.replicate 20 'x') true).pages
      ≠ ["ab".toList ++ (List.replicate 7 'x' ++ ('.' :: '.' :: '.' :: []))
          ++ "cd".toList]
    ∧ (Paginator.addLine (Paginator.init 10 "ab".toList "cd".toList true)
        (List.replicate 20 'x') true).pages
      = ["ab".toList ++ (List.replicate 3 'x' ++ ('.' :: '.' :: '.' :: []))
          ++ "cd".toList] := by
  decide

/-- C2 counterexample: the spec's scenario (maxPageSize 20, the three
10-character lines added via addLine) yields 3 pages, not the 2 pages the
claim states: a line's newline counts against the page size, so
"aaaaaaaaaa" plus newline plus "bbbbbbbbbb" would occupy 21 > 20. -/
theorem paginator_packing_counterexample :
    (Paginator.runAdds (Paginator.init 20 [] [] true)
      [("aaaaaaaaaa".toList, true), ("bbbbbbbbbb".toList, true),
       ("cccccccccc".toList, true)]).pages.length ≠ 2 := by
  decide

/-- C2 (amended): the scenario yields exactly 3 pages with raw contents
"aaaaaaaaaa", "bbbbbbbbbb" and "cccccccccc", each rendered page at most
20 characters long, with the input order preserved (greedy packing). -/
theorem paginator_packing_pages :
    (Paginator.runAdds (Paginator.init 20 [] [] true)
      [("aaaaaaaaaa".toList, true), ("bbbbbbbbbb".toList, true),
       ("cccccccccc".toList, true)]).rawPages
      = ["aaaaaaaaaa".toList, "bbbbbbbbbb".toList, "cccccccccc".toList]
    ∧ ∀ page ∈ (Paginator.runAdds (Paginator.init 20 [] [] true)
      [("aaaaaaaaaa".toList, true), ("bbbbbbbbbb".toList, true),
       ("cccccccccc".toList, true)]).pages, page.length ≤ 20 := by
  decide

/-- C3: a Paginator to which no lines have been added produces exactly
one page, and that page is empty - never zero pages. -/
theorem paginator_empty_single_page (m : Nat) (pre suf : Text) (tr : Bool) :
    (Paginator.init m pre suf tr).rawPages = [[]]
    ∧ (Paginator.init m pre suf tr).pages.length = 1 :=
  ⟨rfl, rfl⟩

/-- C4: reading the pages property twice with no intervening mutation
returns equal page sequences, and the read leaves the paginator state
unchanged. -/
theorem paginator_pages_idempotent (p : Paginator) :
    (p.readPages.2.readPages).1 = p.readPages.1 ∧ p.readPages.2 = p :=
  ⟨rfl, rfl⟩

/-! ## Navigator lemmas -/

namespace StringNavigator

theorem applyAction_pages (n : StringNavigator) (a : BAction) :
    (n.applyAction a).pages = n.pages := by
  cases a <;> rfl

theorem applyAction_alive (n : StringNavigator) (a : BAction) :
    (n.applyAction a).isAlive = true → n.isAlive = true := by
  cases a <;> intro h
  case lock => simp [applyAction] at h
  all_goals exact h

theorem applyAction_idx (n : StringNavigator) (a : BAction)
    (h : n.currentIndex < n.pages.length) :
    (n.applyAction a).currentIndex < n.pages.length := by
  cases a <;> simp [applyAction] <;> omega

theorem applyOp_pages (n : StringNavigator) (op : NavOp) :
    (n.applyOp op).pages = n.pages := by
  unfold applyOp
  split
  · rfl
  · cases op with
    | press a => exact applyAction_pages n a
    | timeoutFire => rfl
    | killOp pol => rfl

theorem applyOp_alive (n : StringNavigator) (op : NavOp) :
    (n.applyOp op).isAlive = true → n.isAlive = true := by
  unfold applyOp
  split
  · exact fun h => h
  · next hna =>
    intro _
    cases hh : n.isAlive
    · exact absurd hh hna
    · rfl

theorem applyOp_idx (n : StringNavigator) (op : NavOp)
    (h : n.currentIndex < n.pages.length) :
    (n.applyOp op).currentIndex < n.pages.length := by
  unfold applyOp
  split
  · exact h
  · cases op with
    | press a => exact applyAction_idx n a h
    | timeoutFire => exact h
    | killOp pol => exact h

theorem runOps_pages (ops : List NavOp) : ∀ n : StringNavigator,
    (runOps n ops).pages = n.pages := by
  induction ops with
  | nil => exact fun n => rfl
  | cons op rest ih =>
    intro n
    have e : runOps n (op :: rest) = runOps (n.applyOp op) rest := rfl
    rw [e, ih (n.applyOp op), applyOp_pages]

theorem runOps_alive (ops : List NavOp) : ∀ n : StringNavigator,
    (runOps n ops).isAlive = true → n.isAlive = true := by
  induction ops with
  | nil => exact fun n h => h
  | cons op rest ih =>
    intro n h
    have e : runOps n (op :: rest) = runOps (n.applyOp op) rest := rfl
    rw [e] at h
    exact applyOp_alive n op (ih (n.applyOp op) h)

theorem runOps_idx (ops : List NavOp) : ∀ n : StringNavigator,
    n.currentIndex < n.pages.length →
    (runOps n ops).currentIndex < n.pages.length := by
  induction ops with
  | nil => exact fun n h => h
  | cons op rest ih =>
    intro n h
    have e : runOps n (op :: rest) = runOps (n.applyOp op) rest := rfl
    rw [e]
    have := ih (n.applyOp op) (by rw [applyOp_pages]; exact applyOp_idx n op h)
    rw [applyOp_pages] at this
    exact this

theorem applyOp_forward_noop (n : StringNavigator) (ha : n.isAlive = true)
    (hidx : n.currentIndex = n.pages.length - 1) :
    n.applyOp (NavOp.press BAction.forward) = n := by
  unfold applyOp
  rw [if_neg (show ¬ n.isAlive = false by simp [ha])]
  unfold applyAction
  rw [show min (n.pages.length - 1) (n.currentIndex + 1) = n.currentIndex by omega]

theorem applyOp_back_noop (n : StringNavigator) (ha : n.isAlive = true)
    (hidx : n.currentIndex = 0) :
    n.applyOp (NavOp.press BAction.back) = n := by
  unfold applyOp
  rw [if_neg (show ¬ n.isAlive = false by simp [ha])]
  unfold applyAction
  rw [show n.currentIndex - 1 = n.currentIndex by omega]

theorem runOps_forward_fields (k : Nat) : ∀ n : StringNavigator,
    n.isAlive = true → n.currentIndex + k ≤ n.pages.length - 1 →
    (runOps n (List.replicate k (NavOp.press BAction.forward))).currentIndex
        = n.currentIndex + k
    ∧ (runOps n (List.replicate k (NavOp.press BAction.forward))).isAlive = true
    ∧ (runOps n (List.replicate k (NavOp.press BAction.forward))).pages = n.pages := by
  induction k with
  | zero => exact fun n ha hk => ⟨rfl, ha, rfl⟩
  | succ k ih =>
    intro n ha hk
    rw [List.replicate_succ]
    have hstep : n.applyOp (NavOp.press BAction.forward)
        = { n with currentIndex := n.currentIndex + 1 } := by
      unfold applyOp
      rw [if_neg (show ¬ n.isAlive = false by simp [ha])]
      unfold applyAction
      rw [show min (n.pages.length - 1) (n.currentIndex + 1) = n.currentIndex + 1 by omega]
    have e : runOps n (NavOp.press BAction.forward :: List.replicate k (NavOp.press BAction.forward))
        = runOps (n.applyOp (NavOp.press BAction.forward)) (List.replicate k (NavOp.press BAction.forward)) := rfl
    rw [e, hstep]
    obtain ⟨i1, i2, i3⟩ := ih { n with currentIndex := n.currentIndex + 1 }
      ha (by show n.currentIndex + 1 + k ≤ n.pages.length - 1; omega)
    have i1' : (runOps { n with currentIndex := n.currentIndex + 1 }
        (List.replicate k (NavOp.press BAction.forward))).currentIndex
        = n.currentIndex + 1 + k := i1
    have i3' : (runOps { n with currentIndex := n.currentIndex + 1 }
        (List.replicate k (NavOp.press BAction.forward))).pages = n.pages := i3
    refine ⟨?_, i2, i3'⟩
    rw [i1']
    omega

end StringNavigator

theorem attemptAll_fst (fails : Call → Bool) (calls : List Call) :
    (attemptAll fails calls).map Prod.fst = calls := by
  induction calls with
  | nil => rfl
  | cons c cs ih =>
    simp only [attemptAll, List.map_cons] at *
    rw [ih]

/-- A concrete three-page navigator used to instantiate the theorems about
navigator dynamics. -/
def sampleNav : StringNavigator :=
  StringNavigator.mk' ⟨1, 2, 3⟩ ["one".toList, "two".toList, "three".toList]
    defaultButtons 300 0

/-- The sample navigator after a start: bound to message 77, with two
supplementary messages. -/
def sampleBound : StringNavigator :=
  { sampleNav with boundMessage := some 77, additional := [81, 82] }

/-! ## Claims C5-C8: the Navigator state machine -/

open StringNavigator in
/-- C5: for every navigator state whose current index is in bounds and
every sequence of button actions, timeouts and kills, the page list never
changes, the current index stays within 0 and the page count (indices are
naturals, so 0 is a lower bound by construction), and isAlive is never
set back to true after becoming false, so the true-to-false transition
happens at most once and is irreversible. -/
theorem navigator_invariant (n : StringNavigator) (ops : List StringNavigator.NavOp)
    (h : n.currentIndex < n.pages.length) :
    (runOps n ops).pages = n.pages
    ∧ (runOps n ops).currentIndex < (runOps n ops).pages.length
    ∧ ((runOps n ops).isAlive = true → n.isAlive = true) := by
  refine ⟨runOps_pages ops n, ?_, runOps_alive ops n⟩
  rw [runOps_pages ops n]
  exact runOps_idx ops n h

/-- C5 witness: the invariant theorem instantiated at the concrete
three-page navigator and a concrete event sequence ending in a kill. -/
theorem navigator_invariant_witness :
    (sampleNav.currentIndex < sampleNav.pages.length)
    ∧ ((StringNavigator.runOps sampleNav
          [.press .forward, .press .forward, .press .forward,
           .killOp CleanupPolicy.RemoveReactions, .press .back]).pages
        = sampleNav.pages
      ∧ (StringNavigator.runOps sampleNav
          [.press .forward, .press .forward, .press .forward,
           .killOp CleanupPolicy.RemoveReactions, .press .back]).currentIndex
        < (StringNavigator.runOps sampleNav
          [.press .forward, .press .forward, .press .forward,
           .killOp CleanupPolicy.RemoveReactions, .press .back]).pages.length
      ∧ ((StringNavigator.runOps sampleNav
          [.press .forward, .press .forward, .press .forward,
           .killOp CleanupPolicy.RemoveReactions, .press .back]).isAlive = true
          → sampleNav.isAlive = true)) :=
  ⟨by decide,
   navigator_invariant sampleNav
     [.press .forward, .press .forward, .press .forward,
      .killOp CleanupPolicy.RemoveReactions, .press .back] (by decide)⟩

open StringNavigator in
/-- C6: for a live navigator with a nonempty page list, forward at the
last page and back at page 0 are complete no-ops, first and last clamp
the index to the valid bounds, and from index 0 applying forward
(page count - 1) times reaches the last index while one further forward
leaves the state unchanged. -/
theorem navigator_boundary (n : StringNavigator) (ha : n.isAlive = true)
    (_hne : n.pages ≠ []) :
    (n.currentIndex = n.pages.length - 1 →
        n.applyOp (.press .forward) = n)
    ∧ (n.currentIndex = 0 → n.applyOp (.press .back) = n)
    ∧ (n.applyOp (.press .first)).currentIndex = 0
    ∧ (n.applyOp (.press .last)).currentIndex = n.pages.length - 1
    ∧ (n.currentIndex = 0 →
        (runOps n (List.replicate (n.pages.length - 1)
            (.press .forward))).currentIndex = n.pages.length - 1
        ∧ (runOps n (List.replicate (n.pages.length - 1)
            (.press .forward))).applyOp (.press .forward)
          = runOps n (List.replicate (n.pages.length - 1) (.press .forward))) := by
  refine ⟨fun hidx => applyOp_forward_noop n ha hidx,
    fun hidx => applyOp_back_noop n ha hidx, ?_, ?_, fun hidx => ?_⟩
  · unfold applyOp
    rw [if_neg (show ¬ n.isAlive = false by simp [ha])]
    rfl
  · unfold applyOp
    rw [if_neg (show ¬ n.isAlive = false by simp [ha])]
    rfl
  · obtain ⟨r1, r2, r3⟩ := runOps_forward_fields (n.pages.length - 1) n ha
      (by omega)
    refine ⟨by rw [r1]; omega, ?_⟩
    exact applyOp_forward_noop _ r2 (by rw [r1, r3]; omega)

/-- C6 witness: the boundary theorem instantiated at the concrete
three-page navigator. -/
theorem navigator_boundary_witness :
    (sampleNav.isAlive = true ∧ sampleNav.pages ≠ [])
    ∧ ((sampleNav.currentIndex = sampleNav.pages.length - 1 →
          sampleNav.applyOp (.press .forward) = sampleNav)
      ∧ (sampleNav.currentIndex = 0 →
          sampleNav.applyOp (.press .back) = sampleNav)
      ∧ (sampleNav.applyOp (.press .first)).currentIndex = 0
      ∧ (sampleNav.applyOp (.press .last)).currentIndex
          = sampleNav.pages.length - 1
      ∧ (sampleNav.currentIndex = 0 →
          (StringNavigator.runOps sampleNav (List.replicate (sampleNav.pages.length - 1)
              (.press .forward))).currentIndex = sampleNav.pages.length - 1
          ∧ (StringNavigator.runOps sampleNav (List.replicate (sampleNav.pages.length - 1)
              (.press .forward))).applyOp (.press .forward)
            = StringNavigator.runOps sampleNav
                (List.replicate (sampleNav.pages.length - 1) (.press .forward)))) :=
  ⟨⟨by decide, by decide⟩, navigator_boundary sampleNav (by decide) (by decide)⟩

open StringNavigator in
/-- C7: an interaction event whose acting user is neither the invoking
user nor the bot owner never changes the navigator state (in particular
the current index), never issues an edit of the bound message, and is
silently dropped: when the navigator is alive and the event matches the
bound message, the only call issued removes the triggering reaction. -/
theorem interaction_foreign_user (n : StringNavigator) (e : StringNavigator.Event)
    (h1 : e.actingUser ≠ n.owner) (h2 : e.actingUser ≠ n.botOwner) :
    (n.handleEvent e).1 = n
    ∧ (n.handleEvent e).1.currentIndex = n.currentIndex
    ∧ (∀ c ∈ (n.handleEvent e).2, ∀ mid content, c ≠ Call.editMessage mid content)
    ∧ (n.isAlive = true → n.boundMessage = some e.messageId →
        (n.handleEvent e).2 = [Call.removeReaction e.messageId e.actingUser]) := by
  unfold handleEvent
  have hperm : ¬ (e.actingUser = n.owner ∨ e.actingUser = n.botOwner) := by
    rintro (h | h)
    · exact h1 h
    · exact h2 h
  by_cases ha : n.isAlive = false
  · rw [if_pos ha]
    refine ⟨rfl, rfl, ?_, ?_⟩
    · intro c hc
      simp at hc
    · intro htrue _
      rw [htrue] at ha
      exact Bool.noConfusion ha
  · rw [if_neg ha]
    by_cases hb : n.boundMessage ≠ some e.messageId
    · rw [if_pos hb]
      refine ⟨rfl, rfl, ?_, ?_⟩
      · intro c hc
        simp at hc
      · intro _ hbm
        exact absurd hbm hb
    · rw [if_neg hb, if_neg hperm]
      refine ⟨rfl, rfl, ?_, fun _ _ => rfl⟩
      intro c hc mid content
      simp only [List.mem_singleton] at hc
      rw [hc]
      exact fun hEq => Call.noConfusion hEq

/-- C7 witness: the theorem instantiated at the bound sample navigator and
an event from user 99, who is neither the invoker (2) nor the owner (3). -/
theorem interaction_foreign_user_witness :
    ((99 : Nat) ≠ sampleBound.owner ∧ (99 : Nat) ≠ sampleBound.botOwner)
    ∧ ((sampleBound.handleEvent ⟨77, .forward, 99⟩).1 = sampleBound
      ∧ (sampleBound.handleEvent ⟨77, .forward, 99⟩).1.currentIndex
          = sampleBound.currentIndex
      ∧ (∀ c ∈ (sampleBound.handleEvent ⟨77, .forward, 99⟩).2,
          ∀ mid content, c ≠ Call.editMessage mid content)
      ∧ (sampleBound.isAlive = true → sampleBound.boundMessage = some 77 →
          (sampleBound.handleEvent ⟨77, .forward, 99⟩).2
            = [Call.removeReaction 77 99])) :=
  ⟨⟨by decide, by decide⟩,
   interaction_foreign_user sampleBound ⟨77, .forward, 99⟩ (by decide) (by decide)⟩

open StringNavigator in
/-- C8: killing a navigator that has exactly two supplementary messages
with policy RemoveAllSentMessages OR RemoveReactions issues exactly the
three deleteMessage calls (root, then both supplementary messages)
followed by the single clearReactions call, in that order, and the
best-effort executor issues every one of these calls no matter which
individual attempts fail. -/
theorem kill_cleanup_calls (n : StringNavigator) (root m1 m2 : Nat)
    (hadd : n.additional = [m1, m2]) (fails : Call → Bool) :
    (n.kill (CleanupPolicy.RemoveAllSentMessages.orWith
        CleanupPolicy.RemoveReactions) root).2
      = [Call.deleteMessage root, Call.deleteMessage m1, Call.deleteMessage m2,
         Call.clearReactions root]
    ∧ (attemptAll fails (n.kill (CleanupPolicy.RemoveAllSentMessages.orWith
        CleanupPolicy.RemoveReactions) root).2).map Prod.fst
      = (n.kill (CleanupPolicy.RemoveAllSentMessages.orWith
          CleanupPolicy.RemoveReactions) root).2
    ∧ (n.kill (CleanupPolicy.RemoveAllSentMessages.orWith
        CleanupPolicy.RemoveReactions) root).1.isAlive = false := by
  refine ⟨?_, attemptAll_fst fails _, rfl⟩
  simp [kill, cleanupCalls, CleanupPolicy.orWith,
    CleanupPolicy.RemoveAllSentMessages, CleanupPolicy.RemoveReactions, hadd]

/-- C8 witness: the cleanup theorem instantiated at the bound sample
navigator (supplementary messages 81 and 82, root 77) with a failure
pattern that fails every delete. -/
theorem kill_cleanup_calls_witness :
    (sampleBound.additional = [81, 82])
    ∧ ((sampleBound.kill (CleanupPolicy.RemoveAllSentMessages.orWith
          CleanupPolicy.RemoveReactions) 77).2
        = [Call.deleteMessage 77, Call.deleteMessage 81, Call.deleteMessage 82,
           Call.clearReactions 77]
      ∧ (attemptAll (fun c => match c with | Call.deleteMessage _ => true | _ => false)
          (sampleBound.kill (CleanupPolicy.RemoveAllSentMessages.orWith
            CleanupPolicy.RemoveReactions) 77).2).map Prod.fst
        = (sampleBound.kill (CleanupPolicy.RemoveAllSentMessages.orWith
            CleanupPolicy.RemoveReactions) 77).2
      ∧ (sampleBound.kill (CleanupPolicy.RemoveAllSentMessages.orWith
          CleanupPolicy.RemoveReactions) 77).1.isAlive = false) :=
  ⟨by decide,
   kill_cleanup_calls sampleBound 77 81 82 (by decide)
     (fun c => match c with | Call.deleteMessage _ => true | _ => false)⟩

/-! ## Claims C9-C10: the StringNavigatorFactory -/

theorem assignKwargs_spec (ks : List Text) : ∀ n : StringNavigator,
    ((∃ k, k ∈ ks ∧ k.length ≠ 2) →
        StringNavigatorFactory.assignKwargs n ks = .error "ValueError")
    ∧ ((∀ k ∈ ks, k.length = 2) →
        StringNavigatorFactory.assignKwargs n ks
          = .ok { n with
              attrs := n.attrs ++ ks.map (fun k => (k.take 1, PyVal.vstr (k.drop 1))) }) := by
  induction ks with
  | nil =>
    intro n
    constructor
    · rintro ⟨k, hk, _⟩
      simp at hk
    · intro _
      show Except.ok n = _
      rw [show n.attrs ++ ([] : List Text).map (fun k => (k.take 1, PyVal.vstr (k.drop 1)))
          = n.attrs by simp]
  | cons k ks ih =>
    intro n
    constructor
    · rintro ⟨k', hk', hlen⟩
      rcases List.mem_cons.mp hk' with rfl | hmem
      · unfold StringNavigatorFactory.assignKwargs
        rw [if_neg hlen]
      · by_cases h2 : k.length = 2
        · unfold StringNavigatorFactory.assignKwargs
          rw [if_pos h2]
          exact (ih _).1 ⟨k', hmem, hlen⟩
        · unfold StringNavigatorFactory.assignKwargs
          rw [if_neg h2]
    · intro hall
      have h2 : k.length = 2 := hall k (List.mem_cons_self k ks)
      unfold StringNavigatorFactory.assignKwargs
      rw [if_pos h2]
      rw [(ih _).2 (fun k' hk' => hall k' (List.mem_cons_of_mem k hk'))]
      have hatt : ({ n with attrs := n.attrs ++ [(k.take 1, PyVal.vstr (k.drop 1))] }
            : StringNavigator).attrs
            ++ ks.map (fun k => (k.take 1, PyVal.vstr (k.drop 1)))
          = n.attrs ++ (k :: ks).map (fun k => (k.take 1, PyVal.vstr (k.drop 1))) := by
        show n.attrs ++ [(k.take 1, PyVal.vstr (k.drop 1))]
            ++ ks.map (fun k => (k.take 1, PyVal.vstr (k.drop 1))) = _
        rw [List.append_assoc]
        rfl
      rw [hatt]

open StringNavigatorFactory in
/-- C9: the factory's start with any arguments is exactly build with the
same arguments followed by invoking the navigator's own start, for every
destination context, button list, timeout, initial page index, keyword
arguments and posted-message id: identical option semantics, state and
effects, including error propagation. -/
theorem factory_start_refines (p : Paginator) (ctx : Ctx)
    (buttons : Option (List BAction)) (timeout initialPage : Nat)
    (kwargs : List (Text × PyVal)) (mid : Nat) :
    StringNavigatorFactory.start p ctx buttons timeout initialPage kwargs mid
      = startSpec p ctx buttons timeout initialPage kwargs mid := by
  unfold StringNavigatorFactory.start startSpec
  cases StringNavigatorFactory.build p ctx buttons timeout initialPage kwargs <;> rfl

open StringNavigatorFactory in
/-- C10: the kwargs loop of StringNavigatorFactory.build iterates over the
dict's keys and tuple-unpacks each key string, so build raises ValueError
whenever any keyword name is not exactly two characters long; when every
name has exactly two characters, each assignment binds the attribute
named after the name's first character to its second character; and the
supplied keyword values are never consulted: two kwargs dicts with the
same keys produce identical results. -/
theorem build_kwargs_bug (p : Paginator) (ctx : Ctx)
    (buttons : Option (List BAction)) (timeout initialPage : Nat)
    (kwargs kwargs' : List (Text × PyVal)) :
    ((∃ kv, kv ∈ kwargs ∧ kv.1.length ≠ 2) →
        build p ctx buttons timeout initialPage kwargs = .error "ValueError")
    ∧ ((∀ kv ∈ kwargs, kv.1.length = 2) →
        build p ctx buttons timeout initialPage kwargs
          = .ok { StringNavigator.mk' ctx p.pages (buttons.getD defaultButtons)
                    timeout initialPage with
                  attrs := kwargs.map
                    (fun kv => (kv.1.take 1, PyVal.vstr (kv.1.drop 1))) })
    ∧ (kwargs.map Prod.fst = kwargs'.map Prod.fst →
        build p ctx buttons timeout initialPage kwargs
          = build p ctx buttons timeout initialPage kwargs') := by
  refine ⟨?_, ?_, ?_⟩
  · rintro ⟨kv, hkv, hlen⟩
    unfold build
    exact (assignKwargs_spec _ _).1 ⟨kv.1, List.mem_map_of_mem Prod.fst hkv, hlen⟩
  · intro hall
    unfold build
    rw [(assignKwargs_spec _ _).2 (by
      intro k hk
      rcases List.mem_map.mp hk with ⟨kv, hkv, rfl⟩
      exact hall kv hkv)]
    rw [List.map_map]
    exact rfl
  · intro hfst
    unfold build
    rw [hfst]

open StringNavigatorFactory in
/-- C10 witness: a three-character keyword name raises ValueError, a
two-character name "ab" sets attribute "a" to the character "b" rather
than to the supplied value 5, and replacing the value 5 by true changes
nothing. -/
theorem build_kwargs_bug_witness :
    ((("abc".toList, PyVal.vnat 5) ∈ [("abc".toList, PyVal.vnat 5)]
        ∧ ("abc".toList : Text).length ≠ 2)
      ∧ (∀ kv ∈ [("ab".toList, PyVal.vnat 5)], (kv.1 : Text).length = 2)
      ∧ [("ab".toList, PyVal.vnat 5)].map Prod.fst
          = [("ab".toList, PyVal.vbool true)].map Prod.fst)
    ∧ (build (Paginator.init 100 [] [] true) ⟨1, 2, 3⟩ none 300 0
        [("abc".toList, PyVal.vnat 5)] = .error "ValueError")
    ∧ (build (Paginator.init 100 [] [] true) ⟨1, 2, 3⟩ none 300 0
        [("ab".toList, PyVal.vnat 5)]
      = .ok { StringNavigator.mk' ⟨1, 2, 3⟩ (Paginator.init 100 [] [] true).pages
                defaultButtons 300 0 with
              attrs := [("a".toList, PyVal.vstr "b".toList)] })
    ∧ (build (Paginator.init 100 [] [] true) ⟨1, 2, 3⟩ none 300 0
        [("ab".toList, PyVal.vnat 5)]
      = build (Paginator.init 100 [] [] true) ⟨1, 2, 3⟩ none 300 0
          [("ab".toList, PyVal.vbool true)]) :=
  ⟨⟨⟨by decide, by decide⟩, by decide, by decide⟩,
   (build_kwargs_bug (Paginator.init 100 [] [] true) ⟨1, 2, 3⟩ none 300 0
       [("abc".toList, PyVal.vnat 5)] []).1
     ⟨("abc".toList, PyVal.vnat 5), by decide, by decide⟩,
   (build_kwargs_bug (Paginator.init 100 [] [] true) ⟨1, 2, 3⟩ none 300 0
       [("ab".toList, PyVal.vnat 5)] []).2.1 (by decide),
   (build_kwargs_bug (Paginator.init 100 [] [] true) ⟨1, 2, 3⟩ none 300 0
       [("ab".toList, PyVal.vnat 5)] [("ab".toList, PyVal.vbool true)]).2.2
     (by decide)⟩

end Nicabot
